import Mathlib

/-!
Verification development for the surl link-shortener core.

The definitions below are a shallow embedding of the TypeScript source:

* `createShortLink` and `getRecentLinks` embed `src/app/actions/link.ts`;
* `redirectGET` embeds the route handler `src/app/[code]/route.ts`
  (the cache-aware variant with `redis.get`, `after(...)` background work);
* `linksGET` embeds `src/app/api/links/route.ts`;
* `generateShortCode` and `isValidUrl` model `src/lib/utils.ts`, which is
  not part of the provided sources, from its specification.

Database calls (`prisma.link.findUnique`, `create`, `update`, `findMany`)
are embedded against an explicit store state (a list of link records), and
fallible external calls (Redis, Prisma) take their outcome as an explicit
`Except` argument.  Timestamps are integers (milliseconds since epoch, as
in JavaScript `Date.getTime()` / `Date.now()`).
-/

namespace Surl

/-- The `Link` record of `prisma/schema.prisma`:
`id` (opaque unique identifier, modelled as `Nat`), `url`, unique
`shortCode`, `createdAt`, optional `expiresAt` (millisecond timestamps)
and the `clicks` counter (a database `Int`, modelled as `Int`). -/
structure Link where
  id : Nat
  url : String
  shortCode : String
  createdAt : Int
  expiresAt : Option Int
  clicks : Int
deriving Repr, DecidableEq

/-- The link store: the state of the `Link` table. -/
abbrev Store := List Link

/-- Embeds `prisma.link.findUnique({ where: { shortCode: code } })`:
the unique record holding `code`, if any. -/
def findUniqueByCode (s : Store) (code : String) : Option Link :=
  s.find? (fun l => l.shortCode == code)

/-- Store operations issued by the creation action, recorded in a trace so
that the order of existence checks and inserts is observable. -/
inductive StoreOp where
  | findUniqueOp (code : String)
  | insertOp (code : String)
deriving Repr, DecidableEq

/-- Outcome of `prisma.link.create`: PostgreSQL enforces the `@unique`
constraint on `shortCode`, so the insert fails (Prisma error `P2002`)
exactly when a record with the same code already exists. -/
inductive InsertResult where
  | okIns (post : Store) (created : Link)
  | uniqueViolation
deriving Repr, DecidableEq

/-- Embeds `prisma.link.create({ data: { url, shortCode, expiresAt } })`
against store state `s`.  `clicks` is absent from `data`, so the schema
default `0` applies; `createdAt` defaults to the current time; `id` is a
fresh opaque identifier (modelled as `s.length`). -/
def insertLink (s : Store) (l : Link) : InsertResult :=
  match findUniqueByCode s l.shortCode with
  | some _ => .uniqueViolation
  | none => .okIns (s ++ [l]) l

/-- The alphabet `[A-Za-z0-9]` used for short codes. -/
def codeAlphabet : List Char :=
  "ABCDEFGHIJKLMNOPQRSTUVWXYZabcdefghijklmnopqrstuvwxyz0123456789".toList

/-- Modelled from the spec: `generateShortCode` of `src/lib/utils.ts` is not
among the provided sources.  Per the spec it returns a string of the
configured length 6 drawn from the alphabet `[A-Za-z0-9]` using a
process-local pseudo-random source (a `Math.random()` index lookup).  The
random source is modelled as an explicit stream `rand` of index draws. -/
def generateShortCode (rand : Nat → Nat) : String :=
  String.mk ((List.range 6).map (fun j => codeAlphabet.getD (rand j % 62) 'A'))

/-- Helper: does the first list begin with the second one? -/
def listBeginsWith : List Char → List Char → Bool
  | _, [] => true
  | [], _ :: _ => false
  | c :: cs, d :: ds => c == d && listBeginsWith cs ds

/-- Modelled from the spec: `isValidUrl` of `src/lib/utils.ts` is not among
the provided sources.  Per the spec it accepts exactly the non-empty
strings that parse as absolute URLs with scheme `http` or `https` (the
scheme marker followed by a non-empty remainder) and length within the
bound (≤ 2048 characters). -/
def isValidUrl (u : String) : Bool :=
  ((listBeginsWith u.toList ("http://".toList) && decide (7 < u.length)) ||
    (listBeginsWith u.toList ("https://".toList) && decide (8 < u.length))) &&
  decide (u.length ≤ 2048)

/-- The object returned by the `createShortLink` server action, modelled
field-by-field: the success path returns `{ success: true, link }`, the
error paths return `{ error: message }` with no `success` member.  Absent
members are `none`. -/
structure ActionResult where
  success : Option Bool
  link : Option Link
  error : Option String
deriving Repr, DecidableEq

/-- The literal `{ error: msg }` (no `success` member). -/
def errRes (msg : String) : ActionResult := ⟨none, none, some msg⟩

/-- The literal `{ success: true, link: l }`. -/
def okRes (l : Link) : ActionResult := ⟨some true, some l, none⟩

/-- State of the retry loop of `createShortLink`: the current value of the
`shortCode` variable, the `isUnique` flag, the trace of store operations
performed so far, and the number of `generateShortCode()` calls made. -/
structure GenLoopState where
  shortCode : String
  isUnique : Bool
  trace : List StoreOp
  genCalls : Nat
deriving Repr, DecidableEq

/-- One unrolling of `for (let i = 0; i < 5; i++)` in `createShortLink`:
each iteration assigns `shortCode = generateShortCode()` (call `i` of the
generator, modelled as `gen i`), queries
`prisma.link.findUnique({ where: { shortCode } })` and, when no record is
found, sets `isUnique = true` and breaks. -/
def genLoopAux (gen : Nat → String) (s : Store) :
    Nat → Nat → GenLoopState → GenLoopState
  | 0, _, st => st
  | fuel + 1, i, st =>
    let c := gen i
    let existing := findUniqueByCode s c
    let st2 : GenLoopState :=
      ⟨c, existing.isNone, st.trace ++ [.findUniqueOp c], st.genCalls + 1⟩
    if existing.isNone then st2 else genLoopAux gen s fuel (i + 1) st2

/-- The whole retry loop: 5 iterations, starting from
`shortCode = ""`, `isUnique = false`. -/
def genLoop (gen : Nat → String) (s : Store) : GenLoopState :=
  genLoopAux gen s 5 0 ⟨"", false, [], 0⟩

/-- Seven days in milliseconds: the fixed expiration window
(`expiresAt.setDate(expiresAt.getDate() + 7)`). -/
def sevenDaysMs : Int := 604800000

/-- Result of one run of the `createShortLink` server action: the returned
object, the trace of store operations, the number of generator calls, and
the post-state of the store. -/
structure CreateOut where
  res : ActionResult
  trace : List StoreOp
  genCalls : Nat
  post : Store
deriving Repr, DecidableEq

/-- Embeds the `createShortLink` server action of `src/app/actions/link.ts`.
`gen i` is the value of the `i`-th `generateShortCode()` call, `s` is the
store state, `url` the submitted form field, `now` the current time.
The action validates the URL, runs the retry loop (generate a candidate,
check existence with `findUnique`, stop at the first free code), fails
with the collision message when no free code was found in 5 tries, and
otherwise performs the single `prisma.link.create`; a thrown store error
(for instance a unique violation from a concurrent insert) is caught and
mapped to the generic error object. -/
def createShortLink (gen : Nat → String) (s : Store) (url : String)
    (now : Int) : CreateOut :=
  if url = "" then ⟨errRes "URL is required", [], 0, s⟩
  else if !isValidUrl url then
    ⟨errRes "Please enter a valid URL (e.g., https://example.com)", [], 0, s⟩
  else
    let st := genLoop gen s
    if !st.isUnique then
      ⟨errRes "Failed to generate a unique short code. Please try again.",
        st.trace, st.genCalls, s⟩
    else
      let candidate : Link :=
        ⟨s.length, url, st.shortCode, now, some (now + sevenDaysMs), 0⟩
      match insertLink s candidate with
      | .okIns s2 newLink =>
        ⟨okRes newLink, st.trace ++ [.insertOp st.shortCode], st.genCalls, s2⟩
      | .uniqueViolation =>
        ⟨errRes "An unexpected error occurred",
          st.trace ++ [.insertOp st.shortCode], st.genCalls, s⟩

/-- Embeds `getRecentLinks` of `src/app/actions/link.ts`: it awaits
`prisma.link.findMany({ orderBy: { createdAt: "desc" }, take: 10 })`,
whose outcome (the query result, or a thrown store error) is the argument
`dbRes`; a thrown error is caught and an empty list returned. -/
def getRecentLinks (dbRes : Except Unit (List Link)) : List Link :=
  match dbRes with
  | .ok links => links
  | .error _ => []

/-- HTTP outcome of the redirect route handler: a plain response with a
status and body, the `redirect(url)` outcome, or the implicit empty
response when the handler falls off the end without redirecting. -/
inductive HttpRes where
  | body (status : Nat) (text : String)
  | redirectTo (url : String)
  | emptyRes
deriving Repr, DecidableEq

/-- A unit of background work handed to `after(...)` by the redirect
handler: on a cache hit, a single click increment keyed by `shortCode`;
on a cache miss, one task that first writes the cache entry and then
increments clicks keyed by `id`. -/
inductive BgTask where
  | hitIncrement (code : String)
  | missSetAndIncrement (code : String) (url : String) (ttl : Int) (id : Nat)
deriving Repr, DecidableEq

/-- The TTL computation of the redirect handler:
`link.expiresAt ? Math.max(1, Math.floor((link.expiresAt.getTime() - Date.now()) / 1000)) : 604800`.
`Int.fdiv` is floor division, matching `Math.floor` of the real quotient. -/
def linkTtl (expiresAt : Option Int) (now : Int) : Int :=
  match expiresAt with
  | some t => max 1 (Int.fdiv (t - now) 1000)
  | none => 604800

/-- The cache-miss continuation of the redirect handler: query the store
(`prisma.link.findUnique`), answer 404 when absent, 410 when expired,
otherwise remember the target URL, schedule the cache-set-plus-increment
background task, and (after the `try` block) redirect when the URL is a
truthy string. -/
def redirectMissPath (code : String) (storeRes : Except Unit (Option Link))
    (now : Int) : HttpRes × List BgTask :=
  match storeRes with
  | .error _ => (.body 500 "Internal Server Error", [])
  | .ok none => (.body 404 "Short link not found", [])
  | .ok (some link) =>
    if (match link.expiresAt with
        | some t => decide (t < now)
        | none => false) then
      (.body 410 "This short link has expired.", [])
    else
      ((if link.url = "" then .emptyRes else .redirectTo link.url),
        [.missSetAndIncrement code link.url (linkTtl link.expiresAt now) link.id])

/-- Embeds the `GET` route handler of `src/app/[code]/route.ts` (the
cache-aware variant).  `cacheRes` is the outcome of
`redis.get<string>("link:" + code)`: a thrown cache error, a missing
entry, or the cached string; `storeRes` is the outcome the store lookup
would produce on the miss path.  Both awaits sit inside one `try` whose
`catch` answers 500, so either failure takes that path.  A cache hit (a
truthy cached string) redirects immediately and schedules only the click
increment; note that JavaScript treats the empty string as falsy, so a
cached `""` takes the miss branch. -/
def redirectGET (code : String) (cacheRes : Except Unit (Option String))
    (storeRes : Except Unit (Option Link)) (now : Int) :
    HttpRes × List BgTask :=
  if code = "" then (.body 404 "Not Found", [])
  else
    match cacheRes with
    | .error _ => (.body 500 "Internal Server Error", [])
    | .ok (some cachedUrl) =>
      if cachedUrl = "" then redirectMissPath code storeRes now
      else (.redirectTo cachedUrl, [.hitIncrement code])
    | .ok none => redirectMissPath code storeRes now

/-- Embeds `prisma.link.update({ where: { shortCode: code }, data: { clicks: { increment: 1 } } })`:
the record holding `code` (unique when the store is well formed) gets
`clicks` advanced by one; when no record matches, the update throws
(`P2025`), the task's `catch` swallows it, and the store is unchanged. -/
def applyIncrementByCode (s : Store) (code : String) : Store :=
  s.map (fun l => if l.shortCode == code then
    ⟨l.id, l.url, l.shortCode, l.createdAt, l.expiresAt, l.clicks + 1⟩ else l)

/-- Embeds `prisma.link.update({ where: { id }, data: { clicks: { increment: 1 } } })`. -/
def applyIncrementById (s : Store) (i : Nat) : Store :=
  s.map (fun l => if l.id == i then
    ⟨l.id, l.url, l.shortCode, l.createdAt, l.expiresAt, l.clicks + 1⟩ else l)

/-- Effect of one background task on the store.  `setOk` tells whether the
`redis.set` call of a miss task succeeded: the task body is one
`try { await redis.set(...); await prisma.link.update(...) } catch`, so a
failed cache write skips the increment entirely.  A hit task holds only
the increment. -/
def runBgTask (s : Store) (t : BgTask) (setOk : Bool) : Store :=
  match t with
  | .hitIncrement code => applyIncrementByCode s code
  | .missSetAndIncrement _ _ _ i => if setOk then applyIncrementById s i else s

/-- Individual side-effect attempts made while executing a background
task, in program order. -/
inductive TaskAttempt where
  | cacheSetAttempt (key : String) (value : String) (ttl : Int)
  | clickIncAttempt (id : Nat)
  | clickIncByCodeAttempt (code : String)
deriving Repr, DecidableEq

/-- The attempts performed by the cache-miss background task of
`src/app/[code]/route.ts`: `redis.set("link:" + code, url, { ex: ttl })`
first and, only when that await resolved, the click increment; a thrown
cache write lands in the task's `catch` before the increment statement
runs. -/
def execMissTask (code url : String) (ttl : Int) (i : Nat)
    (setOutcome : Except Unit Unit) : List TaskAttempt :=
  match setOutcome with
  | .error _ => [.cacheSetAttempt ("link:" ++ code) url ttl]
  | .ok _ =>
    [.cacheSetAttempt ("link:" ++ code) url ttl, .clickIncAttempt i]

/-- The attempts performed by a scheduled background task. -/
def execBgTask (t : BgTask) (setOutcome : Except Unit Unit) :
    List TaskAttempt :=
  match t with
  | .hitIncrement code => [.clickIncByCodeAttempt code]
  | .missSetAndIncrement code url ttl i => execMissTask code url ttl i setOutcome

/-- A transition of the link store made by this core: either one run of the
`createShortLink` action, or the store effect of one scheduled background
task.  No other operation of the core mutates the store. -/
inductive CoreStep : Store → Store → Prop
  | createStep (gen : Nat → String) (url : String) (now : Int) (s : Store) :
      CoreStep s (createShortLink gen s url now).post
  | bgStep (t : BgTask) (setOk : Bool) (s : Store) :
      CoreStep s (runBgTask s t setOk)

/-- Responses of the `GET /api/links` route: the JSON `{ links }` payload,
or the 500 `{ error: "Failed to fetch top links" }` branch. -/
inductive LinksApiRes where
  | jsonLinks (links : List Link)
  | jsonError
deriving Repr, DecidableEq

/-- Embeds the `GET` handler of `src/app/api/links/route.ts`: it awaits
`getRecentLinks()` inside a `try` whose `catch` answers the 500 JSON
error.  The embedded `getRecentLinks` resolves to a value for every store
outcome (it catches the store failure itself), so the handler always
returns the JSON list. -/
def linksGET (dbRes : Except Unit (List Link)) : LinksApiRes :=
  .jsonLinks (getRecentLinks dbRes)

/-! Helper lemmas about the retry loop of `createShortLink`. -/

theorem genLoopAux_zero (gen : Nat → String) (s : Store) (i : Nat)
    (st : GenLoopState) : genLoopAux gen s 0 i st = st := rfl

theorem genLoopAux_succ (gen : Nat → String) (s : Store) (fuel i : Nat)
    (st : GenLoopState) :
    genLoopAux gen s (fuel + 1) i st =
      (if (findUniqueByCode s (gen i)).isNone then
        (⟨gen i, (findUniqueByCode s (gen i)).isNone,
          st.trace ++ [.findUniqueOp (gen i)], st.genCalls + 1⟩ : GenLoopState)
      else genLoopAux gen s fuel (i + 1)
        ⟨gen i, (findUniqueByCode s (gen i)).isNone,
          st.trace ++ [.findUniqueOp (gen i)], st.genCalls + 1⟩) := rfl

/-- The loop only appends `findUnique` operations to the trace. -/
theorem genLoopAux_trace_mono (gen : Nat → String) (s : Store) :
    ∀ fuel i st, ∃ ops, (genLoopAux gen s fuel i st).trace = st.trace ++ ops ∧
      ∀ op ∈ ops, ∃ c, op = StoreOp.findUniqueOp c := by
  intro fuel
  induction fuel with
  | zero => intro i st; exact ⟨[], by simp [genLoopAux_zero], by simp⟩
  | succ n ih =>
    intro i st
    rw [genLoopAux_succ]
    cases h : (findUniqueByCode s (gen i)).isNone with
    | true =>
      refine ⟨[.findUniqueOp (gen i)], by simp [h], by simp⟩
    | false =>
      simp only [h, Bool.false_eq_true, if_false]
      obtain ⟨ops, heq, hall⟩ := ih (i + 1)
        ⟨gen i, false, st.trace ++ [.findUniqueOp (gen i)], st.genCalls + 1⟩
      refine ⟨.findUniqueOp (gen i) :: ops, ?_, ?_⟩
      · rw [heq]; simp
      · intro op hop
        rcases List.mem_cons.mp hop with h1 | h1
        · exact ⟨gen i, h1⟩
        · exact hall op h1

/-- When the loop ends with `isUnique = true` (starting from a state where
it is not yet set), the final `shortCode` is some generator output that
the store does not contain, and the corresponding existence check is in
the trace. -/
theorem genLoopAux_unique_spec (gen : Nat → String) (s : Store) :
    ∀ fuel i st, st.isUnique = false →
      (genLoopAux gen s fuel i st).isUnique = true →
      ∃ j, (genLoopAux gen s fuel i st).shortCode = gen j ∧
        findUniqueByCode s (gen j) = none ∧
        StoreOp.findUniqueOp (gen j) ∈ (genLoopAux gen s fuel i st).trace := by
  intro fuel
  induction fuel with
  | zero =>
    intro i st hst hres
    rw [genLoopAux_zero] at hres
    rw [hst] at hres
    exact absurd hres (by simp)
  | succ n ih =>
    intro i st hst hres
    rw [genLoopAux_succ] at hres ⊢
    cases h : (findUniqueByCode s (gen i)).isNone with
    | true =>
      refine ⟨i, by simp [h], Option.isNone_iff_eq_none.mp h, by simp [h]⟩
    | false =>
      simp only [h, Bool.false_eq_true, if_false] at hres ⊢
      exact ih (i + 1) _ rfl hres

/-- When the generator collides on its first `m` outputs (counting from
index `i`) and is fresh at index `i + m`, and `m` is within the fuel, the
loop stops at `gen (i + m)` with `isUnique` set after exactly `m + 1`
generator calls. -/
theorem genLoopAux_success_count (gen : Nat → String) (s : Store) :
    ∀ m fuel i st, m < fuel →
      (∀ j, j < m → (findUniqueByCode s (gen (i + j))).isSome = true) →
      findUniqueByCode s (gen (i + m)) = none →
      (genLoopAux gen s fuel i st).shortCode = gen (i + m) ∧
      (genLoopAux gen s fuel i st).isUnique = true ∧
      (genLoopAux gen s fuel i st).genCalls = st.genCalls + (m + 1) := by
  intro m
  induction m with
  | zero =>
    intro fuel i st hlt hcol hfresh
    match fuel, hlt with
    | f + 1, _ =>
      rw [genLoopAux_succ]
      simp only [Nat.add_zero] at hfresh
      simp [hfresh]
  | succ n ih =>
    intro fuel i st hlt hcol hfresh
    match fuel, hlt with
    | f + 1, _ =>
      have hc0 : (findUniqueByCode s (gen (i + 0))).isSome = true :=
        hcol 0 (Nat.succ_pos n)
      rw [Nat.add_zero] at hc0
      have hnone : (findUniqueByCode s (gen i)).isNone = false := by
        cases hx : findUniqueByCode s (gen i) <;> simp [hx] at hc0 ⊢
      rw [genLoopAux_succ]
      simp only [hnone, Bool.false_eq_true, if_false]
      have hcol2 : ∀ j, j < n →
          (findUniqueByCode s (gen (i + 1 + j))).isSome = true := by
        intro j hj
        have := hcol (j + 1) (by omega)
        have harith : i + (j + 1) = i + 1 + j := by omega
        rwa [harith] at this
      have hfresh2 : findUniqueByCode s (gen (i + 1 + n)) = none := by
        have harith : i + (n + 1) = i + 1 + n := by omega
        rwa [harith] at hfresh
      have hmain := ih f (i + 1)
        ⟨gen i, false, st.trace ++ [StoreOp.findUniqueOp (gen i)],
          st.genCalls + 1⟩ (by omega) hcol2 hfresh2
      refine ⟨?_, hmain.2.1, ?_⟩
      · rw [hmain.1]; congr 1; omega
      · rw [hmain.2.2]
        show st.genCalls + 1 + (n + 1) = st.genCalls + (n + 1 + 1)
        omega

/-- When the generator collides on every output the loop can reach, the
loop consumes all its fuel, makes exactly `fuel` generator calls, and
never sets `isUnique`. -/
theorem genLoopAux_exhaust (gen : Nat → String) (s : Store) :
    ∀ fuel i st,
      (∀ j, j < fuel → (findUniqueByCode s (gen (i + j))).isSome = true) →
      (genLoopAux gen s fuel i st).genCalls = st.genCalls + fuel ∧
      (0 < fuel → (genLoopAux gen s fuel i st).isUnique = false) := by
  intro fuel
  induction fuel with
  | zero =>
    intro i st _
    exact ⟨by rw [genLoopAux_zero]; omega, fun h => absurd h (by omega)⟩
  | succ n ih =>
    intro i st hcol
    have hc0 : (findUniqueByCode s (gen (i + 0))).isSome = true :=
      hcol 0 (Nat.succ_pos n)
    rw [Nat.add_zero] at hc0
    have hnone : (findUniqueByCode s (gen i)).isNone = false := by
      cases hx : findUniqueByCode s (gen i) <;> simp [hx] at hc0 ⊢
    rw [genLoopAux_succ]
    simp only [hnone, Bool.false_eq_true, if_false]
    rcases Nat.eq_zero_or_pos n with hn | hn
    · subst hn
      exact ⟨by rw [genLoopAux_zero], fun _ => by rw [genLoopAux_zero]⟩
    · have hcol2 : ∀ j, j < n →
          (findUniqueByCode s (gen (i + 1 + j))).isSome = true := by
        intro j hj
        have := hcol (j + 1) (by omega)
        have harith : i + (j + 1) = i + 1 + j := by omega
        rwa [harith] at this
      have hmain := ih (i + 1)
        ⟨gen i, false, st.trace ++ [StoreOp.findUniqueOp (gen i)],
          st.genCalls + 1⟩ hcol2
      refine ⟨?_, fun _ => hmain.2 hn⟩
      rw [hmain.1]
      show st.genCalls + 1 + n = st.genCalls + (n + 1)
      omega

/-- Inserting a record whose code is absent succeeds and appends it. -/
theorem insertLink_of_fresh (s : Store) (l : Link)
    (h : findUniqueByCode s l.shortCode = none) :
    insertLink s l = .okIns (s ++ [l]) l := by
  simp [insertLink, h]

theorem genLoop_def (gen : Nat → String) (s : Store) :
    genLoop gen s = genLoopAux gen s 5 0 ⟨"", false, [], 0⟩ := rfl

/-- The first store operation of the retry loop is the existence check for
the first generated candidate. -/
theorem genLoop_trace_head (gen : Nat → String) (s : Store) :
    ∃ rest, (genLoop gen s).trace = StoreOp.findUniqueOp (gen 0) :: rest := by
  rw [genLoop_def, genLoopAux_succ]
  cases h : (findUniqueByCode s (gen 0)).isNone with
  | true => exact ⟨[], by simp [h]⟩
  | false =>
    simp only [h, Bool.false_eq_true, if_false]
    obtain ⟨ops, heq, _⟩ := genLoopAux_trace_mono gen s 4 1
      ⟨gen 0, false, [StoreOp.findUniqueOp (gen 0)], 0 + 1⟩
    refine ⟨ops, ?_⟩
    rw [show (⟨gen 0, false,
      (⟨"", false, [], 0⟩ : GenLoopState).trace ++ [StoreOp.findUniqueOp (gen 0)],
      (⟨"", false, [], 0⟩ : GenLoopState).genCalls + 1⟩ : GenLoopState) =
      ⟨gen 0, false, [StoreOp.findUniqueOp (gen 0)], 0 + 1⟩ from rfl]
    rw [heq]
    rfl

/-- On a validated URL `createShortLink` runs the retry loop and then either
fails with the collision message or performs the single insert. -/
theorem createShortLink_valid (gen : Nat → String) (s : Store) (url : String)
    (now : Int) (h1 : url ≠ "") (h2 : isValidUrl url = true) :
    createShortLink gen s url now =
      (if !(genLoop gen s).isUnique then
        ⟨errRes "Failed to generate a unique short code. Please try again.",
          (genLoop gen s).trace, (genLoop gen s).genCalls, s⟩
      else
        match insertLink s ⟨s.length, url, (genLoop gen s).shortCode, now,
            some (now + sevenDaysMs), 0⟩ with
        | .okIns s2 newLink =>
          ⟨okRes newLink,
            (genLoop gen s).trace ++ [.insertOp (genLoop gen s).shortCode],
            (genLoop gen s).genCalls, s2⟩
        | .uniqueViolation =>
          ⟨errRes "An unexpected error occurred",
            (genLoop gen s).trace ++ [.insertOp (genLoop gen s).shortCode],
            (genLoop gen s).genCalls, s⟩) := by
  simp only [createShortLink, if_neg h1, h2, Bool.not_true, Bool.false_eq_true,
    if_false]

/-- C1 counterexample: on a concrete valid creation request the very first
store operation of the Creation Coordinator is a `findUnique` existence
check, not the insert, refuting the description of the code as calling the
store's insert directly with no separate existence check before it. -/
theorem creation_first_op_is_existence_check :
    (createShortLink (fun _ => "abc123") [] "https://example.com" 0).trace.head? =
      some (StoreOp.findUniqueOp "abc123") ∧
    ¬ ((createShortLink (fun _ => "abc123") []
        "https://example.com" 0).trace.head? =
      some (StoreOp.insertOp "abc123")) := by decide

/-- C1 (amended): for every creation request with a valid URL the Creation
Coordinator resolves collisions by check-then-insert: its first store
operation is the existence check for the first generated candidate, and
any insert it performs is for a code whose preceding existence check found
no record in the store. -/
theorem createShortLink_check_then_insert (gen : Nat → String) (s : Store)
    (url : String) (now : Int) (h1 : url ≠ "") (h2 : isValidUrl url = true) :
    (createShortLink gen s url now).trace.head? =
      some (StoreOp.findUniqueOp (gen 0)) ∧
    ∀ c, StoreOp.insertOp c ∈ (createShortLink gen s url now).trace →
      StoreOp.findUniqueOp c ∈ (createShortLink gen s url now).trace ∧
      findUniqueByCode s c = none := by
  rw [createShortLink_valid gen s url now h1 h2]
  obtain ⟨rest, hhead⟩ := genLoop_trace_head gen s
  cases hU : (genLoop gen s).isUnique with
  | false =>
    simp only [hU, Bool.not_false, if_true]
    constructor
    · rw [hhead]; rfl
    · intro c hc
      obtain ⟨ops, heq, hall⟩ := genLoopAux_trace_mono gen s 5 0 ⟨"", false, [], 0⟩
      rw [genLoop_def] at hc
      rw [heq] at hc
      simp only [List.nil_append] at hc
      obtain ⟨c2, hc2⟩ := hall _ hc
      exact absurd hc2 (by simp)
  | true =>
    have hspec := genLoopAux_unique_spec gen s 5 0 ⟨"", false, [], 0⟩ rfl
      (by rw [← genLoop_def]; exact hU)
    rw [← genLoop_def] at hspec
    obtain ⟨j, hcode, hfresh, hmem⟩ := hspec
    simp only [hU, Bool.not_true, Bool.false_eq_true, if_false]
    cases hI : insertLink s ⟨s.length, url, (genLoop gen s).shortCode, now,
        some (now + sevenDaysMs), 0⟩ with
    | okIns s2 newLink =>
      constructor
      · rw [hhead]; rfl
      · intro c hc
        rcases List.mem_append.mp hc with hin | hin
        · obtain ⟨ops, heq, hall⟩ := genLoopAux_trace_mono gen s 5 0
            ⟨"", false, [], 0⟩
          rw [genLoop_def, heq] at hin
          simp only [List.nil_append] at hin
          obtain ⟨c2, hc2⟩ := hall _ hin
          exact absurd hc2 (by simp)
        · have hcc : c = (genLoop gen s).shortCode := by
            simpa using hin
          subst hcc
          rw [hcode]
          exact ⟨List.mem_append.mpr (Or.inl hmem), hfresh⟩
    | uniqueViolation =>
      constructor
      · rw [hhead]; rfl
      · intro c hc
        rcases List.mem_append.mp hc with hin | hin
        · obtain ⟨ops, heq, hall⟩ := genLoopAux_trace_mono gen s 5 0
            ⟨"", false, [], 0⟩
          rw [genLoop_def, heq] at hin
          simp only [List.nil_append] at hin
          obtain ⟨c2, hc2⟩ := hall _ hin
          exact absurd hc2 (by simp)
        · have hcc : c = (genLoop gen s).shortCode := by
            simpa using hin
          subst hcc
          rw [hcode]
          exact ⟨List.mem_append.mpr (Or.inl hmem), hfresh⟩

/-- Witness for the amended C1 at a concrete input. -/
theorem createShortLink_check_then_insert_witness :
    (createShortLink (fun _ => "abc123") [] "https://example.com" 0).trace.head? =
      some (StoreOp.findUniqueOp "abc123") ∧
    (StoreOp.findUniqueOp "abc123" ∈
      (createShortLink (fun _ => "abc123") [] "https://example.com" 0).trace ∧
      findUniqueByCode [] "abc123" = none) := by
  have h := createShortLink_check_then_insert (fun _ => "abc123") []
    "https://example.com" 0 (by decide) (by decide)
  exact ⟨h.1, h.2 "abc123" (by decide)⟩

/-- C4: with a valid URL, a generator whose first `k` outputs collide
(`k ≤ 4`) and whose output `k + 1` is fresh leads to a successful creation
with the fresh code after exactly `k + 1` generator calls; a generator
whose first five outputs all collide leads to the collision-exhausted
error after exactly 5 generator calls, with no sixth call. -/
theorem collision_retry_bound (gen : Nat → String) (s : Store) (url : String)
    (now : Int) (k : Nat) (h1 : url ≠ "") (h2 : isValidUrl url = true) :
    (k ≤ 4 →
      (∀ i, i < k → (findUniqueByCode s (gen i)).isSome = true) →
      findUniqueByCode s (gen k) = none →
      (createShortLink gen s url now).genCalls = k + 1 ∧
      ∃ l, (createShortLink gen s url now).res = okRes l ∧
        l.shortCode = gen k) ∧
    ((∀ i, i < 5 → (findUniqueByCode s (gen i)).isSome = true) →
      (createShortLink gen s url now).res =
        errRes "Failed to generate a unique short code. Please try again." ∧
      (createShortLink gen s url now).genCalls = 5) := by
  rw [createShortLink_valid gen s url now h1 h2]
  constructor
  · intro hk hcol hfresh
    have hloop := genLoopAux_success_count gen s k 5 0 ⟨"", false, [], 0⟩
      (by omega) (by intro j hj; simpa using hcol j hj) (by simpa using hfresh)
    rw [← genLoop_def] at hloop
    obtain ⟨hcode, hU, hcalls⟩ := hloop
    simp only [Nat.zero_add] at hcode
    simp only [hU, Bool.not_true, Bool.false_eq_true, if_false]
    have hfresh2 : findUniqueByCode s
        (⟨s.length, url, (genLoop gen s).shortCode, now,
          some (now + sevenDaysMs), 0⟩ : Link).shortCode = none := by
      show findUniqueByCode s (genLoop gen s).shortCode = none
      rw [hcode]; exact hfresh
    rw [insertLink_of_fresh s _ hfresh2]
    constructor
    · show (genLoop gen s).genCalls = k + 1
      simpa using hcalls
    · refine ⟨⟨s.length, url, (genLoop gen s).shortCode, now,
        some (now + sevenDaysMs), 0⟩, ?_, ?_⟩
      · rfl
      · exact hcode
  · intro hcol
    have hloop := genLoopAux_exhaust gen s 5 0 ⟨"", false, [], 0⟩
      (by intro j hj; simpa using hcol j hj)
    rw [← genLoop_def] at hloop
    have hU := hloop.2 (by omega)
    simp only [hU, Bool.not_false, if_true]
    exact ⟨by trivial, by simpa using hloop.1⟩

/-- Witness for C4 at a concrete input: the first candidate collides, the
second is fresh; creation succeeds with the fresh code after two
generator calls. -/
theorem collision_retry_bound_witness :
    (createShortLink (fun i => if i = 0 then "AAAAAA" else "BBBBBB")
      [⟨0, "http://a.b", "AAAAAA", 0, none, 0⟩]
      "https://example.com" 0).genCalls = 1 + 1 ∧
    (createShortLink (fun i => if i = 0 then "AAAAAA" else "BBBBBB")
      [⟨0, "http://a.b", "AAAAAA", 0, none, 0⟩]
      "https://example.com" 0).res =
      okRes ⟨1, "https://example.com", "BBBBBB", 0, some 604800000, 0⟩ := by
  have h := (collision_retry_bound (fun i => if i = 0 then "AAAAAA" else "BBBBBB")
    [⟨0, "http://a.b", "AAAAAA", 0, none, 0⟩]
    "https://example.com" 0 1 (by decide) (by decide)).1
    (by omega) (by decide) (by decide)
  exact ⟨h.1, by decide⟩

/-- Inversion for a successful insert. -/
theorem insertLink_ok_inv (s : Store) (l : Link) (s2 : Store) (l2 : Link)
    (h : insertLink s l = .okIns s2 l2) : l2 = l ∧ s2 = s ++ [l] := by
  unfold insertLink at h
  cases hf : findUniqueByCode s l.shortCode <;> rw [hf] at h <;> simp at h
  exact ⟨h.2.symm, h.1.symm⟩

/-- Every run of the creation action returns either an `{ error }` object
or a `{ success: true, link }` object. -/
theorem createShortLink_res_shape (gen : Nat → String) (s : Store)
    (url : String) (now : Int) :
    (∃ msg, (createShortLink gen s url now).res = errRes msg) ∨
    (∃ l, (createShortLink gen s url now).res = okRes l) := by
  by_cases h1 : url = ""
  · exact Or.inl ⟨"URL is required", by simp [createShortLink, h1]⟩
  · by_cases h2 : isValidUrl url = true
    · rw [createShortLink_valid gen s url now h1 h2]
      cases hU : (genLoop gen s).isUnique with
      | false =>
        exact Or.inl ⟨"Failed to generate a unique short code. Please try again.",
          by simp [hU]⟩
      | true =>
        cases hI : insertLink s ⟨s.length, url, (genLoop gen s).shortCode, now,
            some (now + sevenDaysMs), 0⟩ with
        | okIns s2 l => exact Or.inr ⟨l, by simp [hU, hI]⟩
        | uniqueViolation =>
          exact Or.inl ⟨"An unexpected error occurred", by simp [hU, hI]⟩
    · have h2f : isValidUrl url = false := by
        cases hx : isValidUrl url
        · rfl
        · exact absurd hx h2
      exact Or.inl ⟨"Please enter a valid URL (e.g., https://example.com)",
        by simp [createShortLink, h1, h2f]⟩

/-- Inversion for a successful creation: the returned link is the record
the action built, and the retry loop found a free code. -/
theorem createShortLink_ok_inv (gen : Nat → String) (s : Store) (url : String)
    (now : Int) (l : Link)
    (h : (createShortLink gen s url now).res = okRes l) :
    l = ⟨s.length, url, (genLoop gen s).shortCode, now,
      some (now + sevenDaysMs), 0⟩ ∧
    (genLoop gen s).isUnique = true := by
  by_cases h1 : url = ""
  · rw [show createShortLink gen s url now = ⟨errRes "URL is required", [], 0, s⟩
      from by simp [createShortLink, h1]] at h
    exact absurd h (by simp [errRes, okRes])
  · by_cases h2 : isValidUrl url = true
    · rw [createShortLink_valid gen s url now h1 h2] at h
      cases hU : (genLoop gen s).isUnique with
      | false =>
        rw [hU] at h
        exact absurd h (by simp [errRes, okRes])
      | true =>
        rw [hU] at h
        simp only [Bool.not_true, Bool.false_eq_true, if_false] at h
        cases hI : insertLink s ⟨s.length, url, (genLoop gen s).shortCode, now,
            some (now + sevenDaysMs), 0⟩ with
        | okIns s2 l2 =>
          rw [hI] at h
          simp only [CreateOut.res] at h
          have hl2 : l2 = l := by
            have h9 := h
            simp [okRes] at h9
            exact h9
          obtain ⟨hl2l, _⟩ := insertLink_ok_inv s _ s2 l2 hI
          exact ⟨by rw [← hl2, hl2l], rfl⟩
        | uniqueViolation =>
          rw [hI] at h
          exact absurd h (by simp [errRes, okRes])
    · have h2f : isValidUrl url = false := by
        cases hx : isValidUrl url
        · rfl
        · exact absurd hx h2
      rw [show createShortLink gen s url now =
        ⟨errRes "Please enter a valid URL (e.g., https://example.com)", [], 0, s⟩
        from by simp [createShortLink, h1, h2f]] at h
      exact absurd h (by simp [errRes, okRes])

/-- C7 counterexample: the validation failure of a concrete invalid request
is the object `{ error: "URL is required" }` with no `success` member at
all, not an object with `success: false` as the claim states. -/
theorem validation_error_has_no_success_field :
    (createShortLink (fun _ => "abc123") [] "" 0).res.error =
      some "URL is required" ∧
    ¬ ((createShortLink (fun _ => "abc123") [] "" 0).res.success =
      some false) := by decide

/-- C7 (amended): for every creation request with an invalid URL (empty, or
rejected by the URL validator) the action fails fast with the typed result
`{ error: message }` — carrying no `success` member — performing no store
operation and leaving the store unchanged; every successful creation
returns `{ success: true, link }`, and no result ever carries
`success: false`. -/
theorem createShortLink_validation (gen : Nat → String) (s : Store)
    (url : String) (now : Int) :
    (url = "" →
      createShortLink gen s url now = ⟨errRes "URL is required", [], 0, s⟩) ∧
    (url ≠ "" → isValidUrl url = false →
      createShortLink gen s url now =
        ⟨errRes "Please enter a valid URL (e.g., https://example.com)",
          [], 0, s⟩) ∧
    (∀ l, (createShortLink gen s url now).res.link = some l →
      (createShortLink gen s url now).res = okRes l) ∧
    ¬ ((createShortLink gen s url now).res.success = some false) := by
  refine ⟨?_, ?_, ?_, ?_⟩
  · intro h1; simp [createShortLink, h1]
  · intro h1 h2f; simp [createShortLink, h1, h2f]
  · intro l hl
    rcases createShortLink_res_shape gen s url now with ⟨msg, hm⟩ | ⟨l2, hm⟩
    · rw [hm] at hl; exact absurd hl (by simp [errRes])
    · rw [hm] at hl ⊢
      simp [okRes] at hl
      rw [hl]
  · rcases createShortLink_res_shape gen s url now with ⟨msg, hm⟩ | ⟨l2, hm⟩
    · rw [hm]; simp [errRes]
    · rw [hm]; simp [okRes]

/-- Witness for the amended C7 at a concrete input. -/
theorem createShortLink_validation_witness :
    createShortLink (fun _ => "abc123") [] "" 0 =
      ⟨errRes "URL is required", [], 0, []⟩ ∧
    ¬ ((createShortLink (fun _ => "abc123") [] "" 0).res.success =
      some false) := by
  have h := createShortLink_validation (fun _ => "abc123") [] "" 0
  exact ⟨h.1 rfl, h.2.2.2⟩

/-- Every position of a generated short code is drawn from the alphabet. -/
theorem codeAlphabet_getD_mem : ∀ m, m < 62 → codeAlphabet.getD m 'A' ∈ codeAlphabet := by
  decide

theorem generateShortCode_length (rand : Nat → Nat) :
    (generateShortCode rand).length = 6 := by
  simp [generateShortCode, String.length]

theorem generateShortCode_mem_alphabet (rand : Nat → Nat) :
    ∀ c ∈ (generateShortCode rand).toList, c ∈ codeAlphabet := by
  intro c hc
  have hc2 : c ∈ (List.range 6).map
      (fun j => codeAlphabet.getD (rand j % 62) 'A') := hc
  obtain ⟨j, _, hj⟩ := List.mem_map.mp hc2
  rw [← hj]
  exact codeAlphabet_getD_mem _ (Nat.mod_lt _ (by omega))

/-- C8: every link returned by a successful creation (with the short-code
generator modelled from the spec) has a 6-character code drawn from
`[A-Za-z0-9]`, `expiresAt` equal to the creation time plus 7 days, and
`clicks` equal to 0. -/
theorem created_link_shape (rands : Nat → Nat → Nat) (s : Store)
    (url : String) (now : Int) (l : Link)
    (h : (createShortLink (fun i => generateShortCode (rands i)) s url
        now).res = okRes l) :
    l.shortCode.length = 6 ∧
    (∀ c ∈ l.shortCode.toList, c ∈ codeAlphabet) ∧
    l.createdAt = now ∧
    l.expiresAt = some (now + sevenDaysMs) ∧
    l.clicks = 0 := by
  obtain ⟨hl, hU⟩ := createShortLink_ok_inv _ s url now l h
  obtain ⟨j, hcode, _, _⟩ := genLoopAux_unique_spec
    (fun i => generateShortCode (rands i)) s 5 0 ⟨"", false, [], 0⟩ rfl
    (by rw [← genLoop_def]; exact hU)
  rw [← genLoop_def] at hcode
  have hsc : l.shortCode = generateShortCode (rands j) := by
    rw [hl]
    exact hcode
  refine ⟨?_, ?_, by rw [hl], by rw [hl], by rw [hl]⟩
  · rw [hsc]; exact generateShortCode_length _
  · rw [hsc]; exact generateShortCode_mem_alphabet _

/-- Witness for C8 at a concrete input. -/
theorem created_link_shape_witness :
    (⟨0, "https://example.com", "AAAAAA", 0, some 604800000, 0⟩ :
      Link).shortCode.length = 6 ∧
    (⟨0, "https://example.com", "AAAAAA", 0, some 604800000, 0⟩ :
      Link).clicks = 0 := by
  have h := created_link_shape (fun _ _ => 0) [] "https://example.com" 0
    ⟨0, "https://example.com", "AAAAAA", 0, some 604800000, 0⟩ (by decide)
  exact ⟨h.1, h.2.2.2.2⟩

/-! Lemmas about the redirect resolver. -/

/-- Whenever the miss path answers with a plain body (404, 410 or 500) it
schedules no background work. -/
theorem redirectMissPath_body_no_tasks (code : String)
    (storeRes : Except Unit (Option Link)) (now : Int) :
    ∀ st txt, (redirectMissPath code storeRes now).1 = .body st txt →
      (redirectMissPath code storeRes now).2 = [] := by
  intro st txt h
  unfold redirectMissPath at h ⊢
  rcases storeRes with e | olink
  · rfl
  · rcases olink with _ | l
    · rfl
    · cases hexp : (match l.expiresAt with
          | some t => decide (t < now)
          | none => false) with
      | true => simp only [hexp, if_true]
      | false =>
        simp only [hexp, Bool.false_eq_true, if_false] at h
        by_cases hurl : l.url = "" <;> simp [hurl] at h

/-- Whenever the redirect handler answers with a plain body (404, 410 or
500) it schedules no background work; in particular no click increment is
scheduled for a `NotFound` or `Gone` response. -/
theorem redirectGET_body_no_tasks (code : String)
    (cacheRes : Except Unit (Option String))
    (storeRes : Except Unit (Option Link)) (now : Int) :
    ∀ st txt, (redirectGET code cacheRes storeRes now).1 = .body st txt →
      (redirectGET code cacheRes storeRes now).2 = [] := by
  intro st txt h
  unfold redirectGET at h ⊢
  by_cases hcode : code = ""
  · simp only [hcode, if_true]
  · simp only [hcode, if_false] at h ⊢
    rcases cacheRes with e | ocache
    · rfl
    · rcases ocache with _ | cu
      · exact redirectMissPath_body_no_tasks code storeRes now st txt h
      · by_cases hcu : cu = ""
        · simp only [hcu, if_true] at h ⊢
          exact redirectMissPath_body_no_tasks code storeRes now st txt h
        · simp only [hcu, if_false] at h
          exact absurd h (by simp)

/-- C2 counterexample: with a cache entry still present for a code whose
link is already expired (500 ms TTL clamp, late cache write, or clock
drift can all produce this state), the handler redirects and schedules a
click increment instead of answering 410 Gone. -/
theorem expired_link_redirects_on_cache_hit :
    (redirectGET "abc" (.ok (some "http://t.example"))
      (.ok (some ⟨0, "http://t.example", "abc", 0, some 5, 0⟩)) 10).1 =
      .redirectTo "http://t.example" ∧
    ¬ ((redirectGET "abc" (.ok (some "http://t.example"))
      (.ok (some ⟨0, "http://t.example", "abc", 0, some 5, 0⟩)) 10).1 =
      .body 410 "This short link has expired.") ∧
    (redirectGET "abc" (.ok (some "http://t.example"))
      (.ok (some ⟨0, "http://t.example", "abc", 0, some 5, 0⟩)) 10).2 =
      [.hitIncrement "abc"] := by decide

/-- C2 (amended): the expiry check runs only on the cache-miss path — a
request whose cache lookup misses and whose stored link is past
`expiresAt` is answered 410 Gone with no background work, and no plain
`NotFound`/`Gone` body ever schedules a click increment; but on a cache
hit the handler redirects and schedules an increment without consulting
`expiresAt` at all. -/
theorem redirect_expiration (code : String)
    (cacheRes : Except Unit (Option String))
    (storeRes : Except Unit (Option Link)) (now : Int) (l : Link) (t : Int)
    (hcode : code ≠ "") :
    ((cacheRes = .ok none ∨ cacheRes = .ok (some "")) →
      storeRes = .ok (some l) → l.expiresAt = some t → t < now →
      redirectGET code cacheRes storeRes now =
        (.body 410 "This short link has expired.", [])) ∧
    (∀ st txt, (redirectGET code cacheRes storeRes now).1 = .body st txt →
      (redirectGET code cacheRes storeRes now).2 = []) ∧
    (∀ cu, cu ≠ "" → cacheRes = .ok (some cu) →
      redirectGET code cacheRes storeRes now =
        (.redirectTo cu, [.hitIncrement code])) := by
  refine ⟨?_, redirectGET_body_no_tasks code cacheRes storeRes now, ?_⟩
  · intro hcache hstore hexp hlt
    have hmiss : redirectMissPath code storeRes now =
        (.body 410 "This short link has expired.", []) := by
      rw [hstore]
      unfold redirectMissPath
      simp [hexp, hlt]
    rcases hcache with hc | hc <;> rw [hc] <;>
      simp only [redirectGET, hcode, if_false, if_true] <;> exact hmiss
  · intro cu hcu hc
    rw [hc]
    simp only [redirectGET, hcode, if_false, hcu, if_true]

/-- Witness for the amended C2 at a concrete input. -/
theorem redirect_expiration_witness :
    redirectGET "abc" (.ok none)
      (.ok (some ⟨0, "http://t.example", "abc", 0, some 5, 0⟩)) 10 =
      (.body 410 "This short link has expired.", []) := by
  have h := redirect_expiration "abc" (.ok none)
    (.ok (some ⟨0, "http://t.example", "abc", 0, some 5, 0⟩)) 10
    ⟨0, "http://t.example", "abc", 0, some 5, 0⟩ 5 (by decide)
  exact h.1 (Or.inl rfl) rfl rfl (by omega)

/-- C3 counterexample: a thrown cache lookup is answered 500, while the
same request with a cache miss would have redirected from the store — the
cache failure is not degraded to a miss and is visible to the caller. -/
theorem cache_failure_yields_500 :
    (redirectGET "abc" (.error ())
      (.ok (some ⟨0, "http://t.example", "abc", 0, none, 0⟩)) 0).1 =
      .body 500 "Internal Server Error" ∧
    (redirectGET "abc" (.ok none)
      (.ok (some ⟨0, "http://t.example", "abc", 0, none, 0⟩)) 0).1 =
      .redirectTo "http://t.example" ∧
    ¬ (redirectGET "abc" (.error ())
        (.ok (some ⟨0, "http://t.example", "abc", 0, none, 0⟩)) 0 =
      redirectGET "abc" (.ok none)
        (.ok (some ⟨0, "http://t.example", "abc", 0, none, 0⟩)) 0) := by decide

/-- C3 (amended): both awaits of the redirect handler sit in one `try`
whose `catch` answers 500, so a thrown cache lookup and a thrown store
lookup alike surface as the internal-error response; a cache failure is
not converted into a cache miss. -/
theorem cache_and_store_failures_yield_500 (code : String)
    (cacheRes : Except Unit (Option String))
    (storeRes : Except Unit (Option Link)) (now : Int) (hcode : code ≠ "") :
    (cacheRes = .error () →
      redirectGET code cacheRes storeRes now =
        (.body 500 "Internal Server Error", [])) ∧
    (storeRes = .error () → (cacheRes = .ok none ∨ cacheRes = .ok (some "")) →
      redirectGET code cacheRes storeRes now =
        (.body 500 "Internal Server Error", [])) := by
  constructor
  · intro hc
    rw [hc]
    simp [redirectGET, hcode]
  · intro hs hcache
    have hmiss : redirectMissPath code storeRes now =
        (.body 500 "Internal Server Error", []) := by
      rw [hs]; rfl
    rcases hcache with hc | hc <;> rw [hc] <;>
      simp only [redirectGET, hcode, if_false, if_true] <;> exact hmiss

/-- Witness for the amended C3 at a concrete input. -/
theorem cache_and_store_failures_yield_500_witness :
    redirectGET "abc" (.error ())
      (.ok (some ⟨0, "http://t.example", "abc", 0, none, 0⟩)) 0 =
      (.body 500 "Internal Server Error", []) := by
  have h := cache_and_store_failures_yield_500 "abc" (.error ())
    (.ok (some ⟨0, "http://t.example", "abc", 0, none, 0⟩)) 0 (by decide)
  exact h.1 rfl

/-- C6 counterexample: a link with only 500 ms of validity left is cached
with the clamped TTL of 1 second, so the cache entry outlives the link's
validity window — the universal "cannot outlive" consequence fails for
sub-second remainders. -/
theorem ttl_outlives_subsecond_expiry :
    (redirectGET "abc" (.ok none)
      (.ok (some ⟨0, "http://t.example", "abc", 0, some 500, 0⟩)) 0).2 =
      [.missSetAndIncrement "abc" "http://t.example" 1 0] ∧
    ¬ ((0 : Int) + 1 * 1000 ≤ 500) := by decide

/-- C6 (amended): the TTL scheduled with the cache write equals
`max(1, floor((expiresAt - now) / 1000))` seconds for a link with an
expiry, and exactly 604800 seconds (7 days) for a link without one; the
entry cannot outlive the link's validity window whenever at least one full
second of validity remains — only for sub-second remainders can the
1-second clamp let it outlive the window (by less than a second). -/
theorem cache_ttl_formula (code : String) (l : Link) (now : Int)
    (hcode : code ≠ "")
    (hvalid : (match l.expiresAt with
      | some t => decide (t < now)
      | none => false) = false) :
    (redirectGET code (.ok none) (.ok (some l)) now).2 =
      [.missSetAndIncrement code l.url (linkTtl l.expiresAt now) l.id] ∧
    (∀ t, l.expiresAt = some t →
      linkTtl l.expiresAt now = max 1 (Int.fdiv (t - now) 1000) ∧
      (1000 ≤ t - now → now + linkTtl l.expiresAt now * 1000 ≤ t)) ∧
    (l.expiresAt = none → linkTtl l.expiresAt now = 604800) := by
  refine ⟨?_, ?_, ?_⟩
  · simp only [redirectGET, hcode, if_false]
    unfold redirectMissPath
    simp only [hvalid, Bool.false_eq_true, if_false]
  · intro t ht
    rw [ht]
    refine ⟨rfl, ?_⟩
    intro hrem
    have hge : 1 ≤ Int.fdiv (t - now) 1000 := by
      rw [Int.fdiv_eq_ediv _ (by omega)]
      rw [Int.le_ediv_iff_mul_le (by omega)]
      omega
    have hmax : linkTtl (some t) now = Int.fdiv (t - now) 1000 := by
      simp only [linkTtl]
      omega
    rw [hmax]
    have hmul : Int.fdiv (t - now) 1000 * 1000 ≤ t - now := by
      rw [Int.fdiv_eq_ediv _ (by omega)]
      exact Int.ediv_mul_le _ (by omega)
    omega
  · intro ht
    rw [ht]
    rfl

/-- Witness for the amended C6 at a concrete input (90 s of validity
remaining: TTL is 90 and the entry dies no later than the link). -/
theorem cache_ttl_formula_witness :
    (redirectGET "abc" (.ok none)
      (.ok (some ⟨0, "http://t.example", "abc", 0, some 90000, 0⟩)) 0).2 =
      [.missSetAndIncrement "abc" "http://t.example"
        (linkTtl (some 90000) 0) 0] ∧
    (linkTtl (some 90000) 0 = max 1 (Int.fdiv (90000 - 0) 1000) ∧
      (0 : Int) + linkTtl (some 90000) 0 * 1000 ≤ 90000) := by
  have h := cache_ttl_formula "abc"
    ⟨0, "http://t.example", "abc", 0, some 90000, 0⟩ 0 (by decide) (by decide)
  have h2 := h.2.1 90000 rfl
  exact ⟨h.1, h2.1, h2.2 (by omega)⟩

/-- C9: a store failure during the recent-links query is swallowed —
`getRecentLinks` returns the empty list instead of throwing, so the 500
branch of the listing route is unreachable via a store failure, and a
failed store read is indistinguishable to the caller from an empty
table. -/
theorem recent_links_store_failure_swallowed
    (dbRes : Except Unit (List Link)) :
    getRecentLinks (.error ()) = [] ∧
    ¬ (linksGET dbRes = .jsonError) ∧
    linksGET (.error ()) = linksGET (.ok []) := by
  refine ⟨rfl, ?_, rfl⟩
  cases dbRes <;> simp [linksGET]

/-- Witness for C9 at a concrete input. -/
theorem recent_links_store_failure_swallowed_witness :
    getRecentLinks (.error ()) = [] ∧
    ¬ (linksGET (.error ()) = .jsonError) := by
  have h := recent_links_store_failure_swallowed (.error ())
  exact ⟨h.1, h.2.1⟩

/-- C10: the cache-miss path hands `after(...)` exactly one unit of work,
and that task runs the cache write and the click increment sequentially in
that order: when the cache set fails, the increment is never attempted;
when it succeeds, the increment attempt follows the set attempt. -/
theorem miss_task_single_unit_and_order (code : String) (l : Link)
    (now : Int) (hcode : code ≠ "")
    (hvalid : (match l.expiresAt with
      | some t => decide (t < now)
      | none => false) = false) :
    (redirectGET code (.ok none) (.ok (some l)) now).2 =
      [.missSetAndIncrement code l.url (linkTtl l.expiresAt now) l.id] ∧
    (∀ u ttl i, execMissTask code u ttl i (.error ()) =
      [.cacheSetAttempt ("link:" ++ code) u ttl]) ∧
    (∀ u ttl i, ¬ (TaskAttempt.clickIncAttempt i ∈
      execMissTask code u ttl i (.error ()))) ∧
    (∀ u ttl i, execMissTask code u ttl i (.ok ()) =
      [.cacheSetAttempt ("link:" ++ code) u ttl, .clickIncAttempt i]) := by
  refine ⟨?_, fun u ttl i => rfl, ?_, fun u ttl i => rfl⟩
  · simp only [redirectGET, hcode, if_false]
    unfold redirectMissPath
    simp only [hvalid, Bool.false_eq_true, if_false]
  · intro u ttl i hmem
    simp [execMissTask] at hmem

/-- Witness for C10 at a concrete input. -/
theorem miss_task_single_unit_and_order_witness :
    (redirectGET "abc" (.ok none)
      (.ok (some ⟨0, "http://t.example", "abc", 0, none, 0⟩)) 0).2 =
      [.missSetAndIncrement "abc" "http://t.example"
        (linkTtl none 0) 0] ∧
    execMissTask "abc" "http://t.example" 604800 0 (.error ()) =
      [.cacheSetAttempt "link:abc" "http://t.example" 604800] ∧
    ¬ (TaskAttempt.clickIncAttempt 0 ∈
      execMissTask "abc" "http://t.example" 604800 0 (.error ())) := by
  have h := miss_task_single_unit_and_order "abc"
    ⟨0, "http://t.example", "abc", 0, none, 0⟩ 0 (by decide) (by decide)
  exact ⟨h.1, h.2.1 "http://t.example" 604800 0, h.2.2.1 "http://t.example" 604800 0⟩

/-! Lemmas for the clicks-counter invariants. -/

/-- The creation action either leaves the store unchanged or appends the
one record it built. -/
theorem createShortLink_post_cases (gen : Nat → String) (s : Store)
    (url : String) (now : Int) :
    (createShortLink gen s url now).post = s ∨
    (createShortLink gen s url now).post =
      s ++ [⟨s.length, url, (genLoop gen s).shortCode, now,
        some (now + sevenDaysMs), 0⟩] := by
  by_cases h1 : url = ""
  · exact Or.inl (by simp [createShortLink, h1])
  · by_cases h2 : isValidUrl url = true
    · rw [createShortLink_valid gen s url now h1 h2]
      cases hU : (genLoop gen s).isUnique with
      | false => exact Or.inl (by simp [hU])
      | true =>
        cases hI : insertLink s ⟨s.length, url, (genLoop gen s).shortCode,
            now, some (now + sevenDaysMs), 0⟩ with
        | okIns s2 l2 =>
          obtain ⟨_, hs2⟩ := insertLink_ok_inv s _ s2 l2 hI
          exact Or.inr (by simp [hU, hI, hs2])
        | uniqueViolation => exact Or.inl (by simp [hU, hI])
    · have h2f : isValidUrl url = false := by
        cases hx : isValidUrl url
        · rfl
        · exact absurd hx h2
      exact Or.inl (by simp [createShortLink, h1, h2f])

/-- Every record in the store after a background task comes from a record
before it, with the same identity and URL and with `clicks` either
unchanged or advanced by exactly one. -/
theorem runBgTask_mem (s : Store) (t : BgTask) (b : Bool) :
    ∀ l2 ∈ runBgTask s t b, ∃ l1, l1 ∈ s ∧ l2.id = l1.id ∧
      l2.shortCode = l1.shortCode ∧ l2.url = l1.url ∧
      (l2.clicks = l1.clicks ∨ l2.clicks = l1.clicks + 1) := by
  intro l2 h2
  cases t with
  | hitIncrement code =>
    obtain ⟨l1, hm, hf⟩ := List.mem_map.mp h2
    refine ⟨l1, hm, ?_⟩
    by_cases hc : (l1.shortCode == code) = true <;>
      simp [hc] at hf <;> rw [← hf] <;> simp
  | missSetAndIncrement code u ttl i =>
    cases b with
    | false => exact ⟨l2, h2, rfl, rfl, rfl, Or.inl rfl⟩
    | true =>
      obtain ⟨l1, hm, hf⟩ := List.mem_map.mp h2
      refine ⟨l1, hm, ?_⟩
      by_cases hc : (l1.id == i) = true <;>
        simp [hc] at hf <;> rw [← hf] <;> simp

/-- Every record in the store before a background task survives it, with
the same identity and `clicks` not decreased. -/
theorem runBgTask_mono (s : Store) (t : BgTask) (b : Bool) :
    ∀ l1 ∈ s, ∃ l2, l2 ∈ runBgTask s t b ∧ l2.id = l1.id ∧
      l1.clicks ≤ l2.clicks := by
  intro l1 hm
  cases t with
  | hitIncrement code =>
    refine ⟨_, List.mem_map_of_mem _ hm, ?_⟩
    by_cases hc : (l1.shortCode == code) = true <;> simp [hc]
  | missSetAndIncrement code u ttl i =>
    cases b with
    | false => exact ⟨l1, hm, rfl, le_refl _⟩
    | true =>
      refine ⟨_, List.mem_map_of_mem _ hm, ?_⟩
      by_cases hc : (l1.id == i) = true <;> simp [hc]

/-- Every record after a core transition either descends from a record of
the previous store (clicks unchanged or advanced by one) or is a freshly
created record with `clicks = 0`. -/
theorem coreStep_origin (s s2 : Store) (h : CoreStep s s2) :
    ∀ l2 ∈ s2, (∃ l1, l1 ∈ s ∧
      (l2.clicks = l1.clicks ∨ l2.clicks = l1.clicks + 1)) ∨
      l2.clicks = 0 := by
  cases h with
  | createStep gen url now s =>
    intro l2 h2
    rcases createShortLink_post_cases gen s url now with hp | hp <;>
      rw [hp] at h2
    · exact Or.inl ⟨l2, h2, Or.inl rfl⟩
    · rcases List.mem_append.mp h2 with h3 | h3
      · exact Or.inl ⟨l2, h3, Or.inl rfl⟩
      · right
        have h4 : l2 = ⟨s.length, url, (genLoop gen s).shortCode, now,
            some (now + sevenDaysMs), 0⟩ := by simpa using h3
        rw [h4]
  | bgStep t b s =>
    intro l2 h2
    obtain ⟨l1, hm, _, _, _, hc⟩ := runBgTask_mem s t b l2 h2
    exact Or.inl ⟨l1, hm, hc⟩

/-- C5: `clicks` of every link of this core is a non-negative,
monotonically non-decreasing counter — creation initializes it to 0, a
background task advances it by exactly one (through the store's atomic
increment operation, the only mutation the core issues), no core
transition ever decreases it, and in every store reachable from the empty
store all counters are non-negative. -/
theorem clicks_counter_invariants :
    (∀ gen s url now l, (createShortLink gen s url now).res = okRes l →
      l.clicks = 0) ∧
    (∀ s t b, ∀ l2 ∈ runBgTask s t b, ∃ l1, l1 ∈ s ∧ l2.id = l1.id ∧
      (l2.clicks = l1.clicks ∨ l2.clicks = l1.clicks + 1)) ∧
    (∀ s s2, CoreStep s s2 → ∀ l1 ∈ s, ∃ l2, l2 ∈ s2 ∧ l2.id = l1.id ∧
      l1.clicks ≤ l2.clicks) ∧
    (∀ s, Relation.ReflTransGen CoreStep [] s → ∀ l ∈ s, 0 ≤ l.clicks) := by
  refine ⟨?_, ?_, ?_, ?_⟩
  · intro gen s url now l h
    obtain ⟨hl, _⟩ := createShortLink_ok_inv gen s url now l h
    rw [hl]
  · intro s t b l2 h2
    obtain ⟨l1, hm, hid, _, _, hc⟩ := runBgTask_mem s t b l2 h2
    exact ⟨l1, hm, hid, hc⟩
  · intro s s2 h l1 hm
    cases h with
    | createStep gen url now s =>
      rcases createShortLink_post_cases gen s url now with hp | hp <;> rw [hp]
      · exact ⟨l1, hm, rfl, le_refl _⟩
      · exact ⟨l1, List.mem_append_left _ hm, rfl, le_refl _⟩
    | bgStep t b s => exact runBgTask_mono s t b l1 hm
  · intro s h
    induction h with
    | refl => intro l hl; exact absurd hl (by simp)
    | tail hsteps hstep ih =>
      intro l hl
      rcases coreStep_origin _ _ hstep l hl with ⟨l1, hm, hc⟩ | hc0
      · have := ih l1 hm
        omega
      · omega

/-- Witness for C5 at a concrete input. -/
theorem clicks_counter_invariants_witness :
    (⟨0, "https://example.com", "abc123", 0, some 604800000, 0⟩ :
      Link).clicks = 0 := by
  exact clicks_counter_invariants.1 (fun _ => "abc123") []
    "https://example.com" 0
    ⟨0, "https://example.com", "abc123", 0, some 604800000, 0⟩ (by decide)

example : (createShortLink (fun _ => "abc123") [] "" 0).res =
    errRes "URL is required" := by decide

example : (createShortLink (fun _ => "abc123") [] "https://example.com" 0).res =
    okRes ⟨0, "https://example.com", "abc123", 0, some 604800000, 0⟩ := by decide

example : (createShortLink (fun _ => "abc123") [] "https://example.com" 0).trace =
    [.findUniqueOp "abc123", .insertOp "abc123"] := by decide

example :
    (createShortLink (fun _ => "abc123")
      [⟨0, "http://x.y", "abc123", 0, none, 0⟩] "https://example.com" 0).res =
    errRes "Failed to generate a unique short code. Please try again." := by decide

example :
    (createShortLink (fun _ => "abc123")
      [⟨0, "http://x.y", "abc123", 0, none, 0⟩] "https://example.com" 0).genCalls =
    5 := by decide

end Surl
